import Mathlib

/-!
Shallow embedding of the core of the PDP-11 BASIC interpreter
(`src/basic.c`, the optimised profile, and `src/unnamed/part_002`, the
classic profile).  C doubles are modelled as exact rationals (`Rat`);
C strings as `List Char` (the classic profile caps stored strings at
`MAX_STR_LEN - 1 = 255` characters, enforced at concatenation exactly as
`strncat` does); fallible evaluation returns `Except String` carrying the
exact `runtime_error` diagnostic.
-/

/-- `MAX_STR_LEN - 1` of the classic profile: the longest storable string. -/
def maxStrCap : Nat := 255

/-- `PRINT_WIDTH`: the fixed 80-column print width (both profiles). -/
def printWidth : Nat := 80

/-- Tagged union `struct value` with the `VAL_NUM` / `VAL_STR` cases. -/
inductive BValue where
  | num (q : Rat)
  | str (s : List Char)
deriving DecidableEq, Repr

/-- Sign of C `strcmp` on NUL-free byte strings (only the sign of the C
result is ever consumed by the interpreter). -/
def strCmp : List Char → List Char → Int
  | [], [] => 0
  | [], _ :: _ => -1
  | _ :: _, [] => 1
  | a :: as, b :: bs =>
    if a.toNat < b.toNat then -1
    else if b.toNat < a.toNat then 1
    else strCmp as bs

/-- The C cast `(int)d`: truncation toward zero (C99 6.3.1.4). -/
def truncToInt (q : Rat) : Int :=
  if q < 0 then -⌊-q⌋ else ⌊q⌋

/-- `ensure_num`: fail with the C diagnostic unless the value is numeric. -/
def ensureNum : BValue → Except String Rat
  | .num q => .ok q
  | .str _ => .error "Numeric value required"

/-- `ensure_str`: fail with the C diagnostic unless the value is a string. -/
def ensureStr : BValue → Except String (List Char)
  | .str s => .ok s
  | .num _ => .error "String value required"

/-- The six relational operators handled by `eval_comparison`
(part_002 lines 1039-1108). -/
inductive CmpOp where
  | ceq | cne | clt | cgt | cle | cge
deriving DecidableEq, Repr

/-- Expression forms needed by the claims, following the grammar of the
classic profile's recursive-descent evaluator
(`or_expr → and_expr → comparison → addsub → … → factor`); `lit` stands
for any fully evaluated factor (a numeric or string literal, or the value
read from a variable or returned by an intrinsic). -/
inductive BExpr where
  | lit (v : BValue)
  | add (a b : BExpr)
  | cmp (op : CmpOp) (a b : BExpr)
  | band (a b : BExpr)
  | bor (a b : BExpr)
  | leftStr (s n : BExpr)
  | midStr (s start : BExpr)
deriving Repr

/-- `strncat(left.str, right.str, MAX_STR_LEN - strlen(left.str) - 1)`:
binary `+` on strings concatenates, silently truncating at capacity. -/
def concatStr (a b : List Char) : List Char :=
  a ++ b.take (maxStrCap - a.length)

/-- `LEFT$(s, n)` from `eval_function` (part_002 lines 580-603): the count
is the truncated numeric argument clamped to `[0, strlen s]`. -/
def leftFun (s : List Char) (n : Int) : List Char :=
  let slen : Int := s.length
  let len1 := if n < 0 then 0 else n
  let len2 := if slen < len1 then slen else len1
  s.take len2.toNat

/-- `MID$(s, start)` with the optional length argument omitted
(`len` defaults to the rest of the string), from `eval_function`
(part_002 lines 632-670); `start` is 1-indexed and clamped below at 1. -/
def midFun (s : List Char) (start0 : Int) : List Char :=
  let slen : Int := s.length
  let len : Int := slen
  let start1 := if start0 < 1 then 1 else start0
  let start := start1 - 1
  if slen ≤ start then []
  else
    let len1 := if len < 0 then 0 else len
    let len2 := if slen < start + len1 then slen - start else len1
    (s.drop start.toNat).take len2.toNat

/-- Semantic action of one arm of `eval_comparison` (part_002 lines
1039-1108) on the two already-evaluated operands.  Both operands numeric
compares numerically; a string operand forces both to be strings
(`ensure_str` raises "String value required" otherwise) and compares with
`strcmp`; `<=` and `>=` accept only numbers.  Every successful arm
returns `make_num(-1.0)` or `make_num(0.0)`. -/
def evalCmp (op : CmpOp) (l r : BValue) : Except String BValue :=
  match op with
  | .cne =>
    match l, r with
    | .str a, .str b => .ok (.num (if strCmp a b ≠ 0 then -1 else 0))
    | .num a, .num b => .ok (.num (if a ≠ b then -1 else 0))
    | _, _ => .error "String value required"
  | .cle =>
    match l, r with
    | .num a, .num b => .ok (.num (if a ≤ b then -1 else 0))
    | _, _ => .error "Numeric value required"
  | .cge =>
    match l, r with
    | .num a, .num b => .ok (.num (if b ≤ a then -1 else 0))
    | _, _ => .error "Numeric value required"
  | .clt =>
    match l, r with
    | .str a, .str b => .ok (.num (if strCmp a b < 0 then -1 else 0))
    | .num a, .num b => .ok (.num (if a < b then -1 else 0))
    | _, _ => .error "String value required"
  | .cgt =>
    match l, r with
    | .str a, .str b => .ok (.num (if 0 < strCmp a b then -1 else 0))
    | .num a, .num b => .ok (.num (if b < a then -1 else 0))
    | _, _ => .error "String value required"
  | .ceq =>
    match l, r with
    | .str a, .str b => .ok (.num (if strCmp a b = 0 then -1 else 0))
    | .num a, .num b => .ok (.num (if a = b then -1 else 0))
    | _, _ => .error "String value required"

/-- Evaluator for the embedded expression forms.  Each arm is the semantic
action of the corresponding level of part_002's recursive descent:
`+` adds numbers or concatenates strings (`eval_expr`, lines 1007-1037),
`cmp` is `eval_comparison`, `AND`/`OR` are `eval_and_expr`/`eval_or_expr`
(lines 1110-1150: bitwise on the `(int)` truncations of both sides), and
`LEFT$`/`MID$` are the string intrinsics of `eval_function`. -/
def evalBExpr : BExpr → Except String BValue
  | .lit v => .ok v
  | .add a b => do
    let l ← evalBExpr a
    let r ← evalBExpr b
    match l, r with
    | .num q1, .num q2 => .ok (.num (q1 + q2))
    | .str s1, .str s2 => .ok (.str (concatStr s1 s2))
    | .num _, .str _ => .error "String value required"
    | .str _, .num _ => .error "String value required"
  | .cmp op a b => do
    let l ← evalBExpr a
    let r ← evalBExpr b
    evalCmp op l r
  | .band a b => do
    let l ← evalBExpr a
    let r ← evalBExpr b
    let q1 ← ensureNum l
    let q2 ← ensureNum r
    .ok (.num ((Int.land (truncToInt q1) (truncToInt q2) : Int) : Rat))
  | .bor a b => do
    let l ← evalBExpr a
    let r ← evalBExpr b
    let q1 ← ensureNum l
    let q2 ← ensureNum r
    .ok (.num ((Int.lor (truncToInt q1) (truncToInt q2) : Int) : Rat))
  | .leftStr se ne => do
    let sv ← evalBExpr se
    let s ← ensureStr sv
    let nv ← evalBExpr ne
    let n ← ensureNum nv
    .ok (.str (leftFun s (truncToInt n)))
  | .midStr se ste => do
    let sv ← evalBExpr se
    let s ← ensureStr sv
    let stv ← evalBExpr ste
    let n ← ensureNum stv
    .ok (.str (midFun s (truncToInt n)))

/-- `eval_condition` (part_002 lines 1153-1162): evaluate the whole
or-expression; a string is true iff non-empty, a number iff non-zero. -/
def evalCondition (e : BExpr) : Except String Bool := do
  let v ← evalBExpr e
  match v with
  | .str s => .ok (decide (0 < s.length))
  | .num q => .ok (decide (q ≠ 0))

/-- Decimal rendering of the host `%g` format used by `print_value`, for
the integral magnitudes arising in this development (for an integral
value of magnitude below 10^6, `sprintf "%g"` prints the plain decimal
digits with a leading `-` when negative).  The printing claims depend
only on the length of the rendered text, which `print_value` adds to
`print_col` without any wrap check. -/
def formatG (q : Rat) : List Char :=
  (if q < 0 then ['-'] else []) ++ Nat.toDigits 10 q.num.natAbs

/-- One character of string output in `print_value` (basic.c 307-323,
part_002 321-338): a newline resets the column; any other character
advances it, wrapping to 0 with an automatic newline at the width. -/
def printCharCol (col : Nat) (c : Char) : Nat :=
  if c = '\n' then 0
  else if printWidth ≤ col + 1 then 0 else col + 1

/-- Column tracking of `print_value` over a string value. -/
def printStrCol (s : List Char) (col : Nat) : Nat :=
  s.foldl printCharCol col

/-- Column tracking of `print_value` (basic.c 307-329): strings wrap
character by character; a number is rendered with `%g` and the rendered
length is added to `print_col` with no wrap check. -/
def printValueCol (v : BValue) (col : Nat) : Nat :=
  match v with
  | .str s => printStrCol s col
  | .num q => col + (formatG q).length

/-- Column tracking of `print_spaces` (basic.c 294-305): each emitted
space advances the column, wrapping to 0 at the width. -/
def printSpacesCol : Nat → Nat → Nat
  | 0, col => col
  | count + 1, col =>
    printSpacesCol count (if printWidth ≤ col + 1 then 0 else col + 1)

/-- Column effect of `TAB(n)` (basic.c 428-444, part_002 548-575): the
target is `(int)arg % 80` shifted into `[0, 80)`; if the cursor is past
the target a newline resets it to 0, then spaces are emitted up to the
target. -/
def tabCol (n : Int) (col : Nat) : Nat :=
  let t0 := Int.tmod n 80
  let t1 := if t0 < 0 then t0 + 80 else t0
  let cur : Int := if t1 < (col : Int) then 0 else (col : Int)
  (if cur < t1 then t1 else cur).toNat

/-- Exit-code computation of `main` (basic.c 1452-1464, part_002
1763-1772): a usage error or load error exits 1 (`load_program` calls
`exit(1)` itself); otherwise `run_program()` is called and `main`
returns 0 however the run ended.  The third argument records whether the
run terminated through `runtime_error` (which only sets `halted` and
prints to stderr); `main` never inspects it. -/
def mainExitCode (argProvided loadOk _runtimeErrored : Bool) : Nat :=
  if !argProvided then 1
  else if !loadOk then 1
  else 0

/-- Subscript coercion of `get_var_reference` (basic.c line 564, part_002
line 830): `array_index = (int)(idx_val.num + 0.00001)`. -/
def coerceSubscript (x : Rat) : Int :=
  truncToInt (x + 1 / 100000)

/-- Subscript validation (basic.c 564-568): "Negative array index"
exactly when the coerced index is negative, else the coerced index. -/
def subscriptCheck (x : Rat) : Except String Int :=
  if coerceSubscript x < 0 then .error "Negative array index"
  else .ok (coerceSubscript x)

/-- `DEFAULT_ARRAY_SIZE` (both profiles). -/
def defaultArraySize : Int := 11

/-- First-use array allocation size (basic.c line 570): the C conditional
`array_index + 1 < DEFAULT_ARRAY_SIZE ? DEFAULT_ARRAY_SIZE : array_index + 1`. -/
def firstUseArraySize (i : Int) : Int :=
  if i + 1 < defaultArraySize then defaultArraySize else i + 1

/-- Array growth at reference time (basic.c 581-590): when the coerced
index reaches past the current size the array is reallocated to
`index + 1` entries and the new tail is zero-filled (`memset` zeroes give
`VAL_NUM 0` values). -/
def growArray (arr : List BValue) (i : Nat) : List BValue :=
  if i < arr.length then arr
  else arr ++ List.replicate (i + 1 - arr.length) (BValue.num 0)

/-- Linear line lookup of the classic profile (part_002 1645-1654): scan
for the first entry whose number matches, else -1.  The store is
modelled by its list of line numbers; `i` is the running index. -/
def findLineAux : List Int → Int → Int → Int
  | [], _, _ => -1
  | x :: xs, number, i => if x = number then i else findLineAux xs number (i + 1)

/-- `find_line_index` of the classic profile. -/
def findLineClassic (nums : List Int) (number : Int) : Int :=
  findLineAux nums number 0

/-- Loop of the binary search in the optimised `find_line_index`
(basic.c 1301-1320), with the iteration count made explicit as fuel:
each iteration strictly shrinks `high - low`, so `length + 1` iterations
always suffice (proved below). -/
def bsearchAux (nums : List Int) (number : Int) : Nat → Int → Int → Int
  | 0, _, _ => -1
  | fuel + 1, low, high =>
    if low ≤ high then
      let mid := (low + high) / 2
      let v := nums.getD mid.toNat 0
      if v = number then mid
      else if v < number then bsearchAux nums number fuel (mid + 1) high
      else bsearchAux nums number fuel low (mid - 1)
    else -1

/-- The optimised binary search over the whole store, cache aside. -/
def findLineBsearch (nums : List Int) (number : Int) : Int :=
  bsearchAux nums number (nums.length + 1) 0 ((nums.length : Int) - 1)

/-- `find_line_index` with its one-slot cache (basic.c 1292-1321): a hit
on `last_lookup_num` short-circuits; a successful search writes the
cache (the cache is only assigned inside the equality branch of the
loop); a failed search leaves it unchanged. -/
def findLineCached (nums : List Int) (cache : Int × Int) (number : Int) :
    (Int × Int) × Int :=
  if number = cache.1 then (cache, cache.2)
  else
    let r := findLineBsearch nums number
    if r = -1 then (cache, r) else ((number, r), r)

/-- Run a sequence of lookups through the cached search, threading the
cache state, collecting the results. -/
def runLookups (nums : List Int) : (Int × Int) → List Int → List Int
  | _, [] => []
  | cache, q :: qs =>
    let res := findLineCached nums cache q
    res.2 :: runLookups nums res.1 qs

/-- `MAX_GOSUB` of the optimised profile (the classic profile uses 64). -/
def maxGosub : Nat := 32

/-- `MAX_FOR` of the optimised profile (the classic profile uses 32). -/
def maxFor : Nat := 16

/-- `struct for_frame`.  The loop variable is identified by its saved
two-letter key; the C frame additionally caches a raw pointer to the
variable's scalar slot, modelled here by re-resolving the key in the
variable store (spec §9 names this as the intended re-architecture).
The resume point is the saved `(line_index, resume_pos)` pair with the
intra-line cursor as a byte offset. -/
structure ForFrame where
  name1 : Char
  name2 : Char
  endValue : Rat
  step : Rat
  lineIndex : Int
  resumePos : Nat
deriving DecidableEq, Repr

/-- The interpreter state touched by the control-flow claims: the line
store (as its list of line numbers), the numeric scalar variables (an
association list keyed by the two-letter name, mirroring the `vars[]`
scan of `find_or_create_var`), both stacks (head = top), the driver
registers, and the `runtime_error` diagnostic. -/
structure InterpState where
  lineNums : List Int := []
  numVars : List ((Char × Char) × Rat) := []
  gosubStack : List (Int × Nat) := []
  forStack : List ForFrame := []
  currentLine : Int := 0
  statementPos : Option Nat := none
  halted : Bool := false
  errMsg : Option String := none
deriving DecidableEq, Repr

/-- `runtime_error` (basic.c 140-148): record the diagnostic and set the
halted flag; the driver stops at its next check. -/
def runtimeErrorSt (st : InterpState) (msg : String) : InterpState :=
  { st with halted := true, errMsg := some msg }

/-- Numeric scalar read: `find_or_create_var` initialises a fresh numeric
variable's scalar slot to `make_num(0.0)`, so reading an absent key
yields 0. -/
def lookupVar : List ((Char × Char) × Rat) → (Char × Char) → Rat
  | [], _ => 0
  | (k2, q) :: rest, k => if k2 = k then q else lookupVar rest k

/-- Numeric scalar write through the reference `get_var_reference`
returned (update in place, create at first use). -/
def setVar : List ((Char × Char) × Rat) → (Char × Char) → Rat →
    List ((Char × Char) × Rat)
  | [], k, q => [(k, q)]
  | (k2, q2) :: rest, k, q =>
    if k2 = k then (k2, q) :: rest else (k2, q2) :: setVar rest k q

/-- Semantic core of `statement_for` (basic.c 1024-1096) after the header
`FOR v = start TO end [STEP s]` has been parsed and `v` resolved to a
numeric scalar: overflow check, assignment of `start` to `v`, and an
unconditional push of the frame capturing `end`, `step`, the current
line index and the cursor just past the FOR statement.  Nowhere is
`start` compared against `end`. -/
def statementFor (k : Char × Char) (startv endv stepv : Rat) (resume : Nat)
    (st : InterpState) : InterpState :=
  if maxFor ≤ st.forStack.length then runtimeErrorSt st "FOR stack overflow"
  else
    { st with
      numVars := setVar st.numVars k startv
      forStack :=
        { name1 := k.1, name2 := k.2, endValue := endv, step := stepv,
          lineIndex := st.currentLine, resumePos := resume } :: st.forStack }

/-- Frame matching of `statement_next` (basic.c line 1115): an omitted
name (`namebuf[0] == '\0'`) matches any frame, a given name matches on
the saved two-letter key. -/
def frameMatches (name : Option (Char × Char)) (f : ForFrame) : Bool :=
  match name with
  | none => true
  | some k => f.name1 = k.1 && f.name2 = k.2

/-- The frame search of `statement_next` (basic.c 1114-1125): walk from
the innermost frame downward; `for_top = i + 1` discards every frame
above the match, so the result is the matched frame together with the
frames strictly below it. -/
def popToFrame (name : Option (Char × Char)) :
    List ForFrame → Option (ForFrame × List ForFrame)
  | [] => none
  | f :: fs => if frameMatches name f then some (f, fs) else popToFrame name fs

/-- `statement_next` (basic.c 1098-1141): find the matching frame
(discarding inner frames), add the step to the loop variable, then
either resume at the frame's saved `(line index, cursor)` when
`step ≥ 0 ∧ v ≤ end` or `step < 0 ∧ v ≥ end`, or pop the frame and fall
through; with no matching frame the run dies with "NEXT without FOR". -/
def statementNext (name : Option (Char × Char)) (st : InterpState) : InterpState :=
  match popToFrame name st.forStack with
  | none => runtimeErrorSt st "NEXT without FOR"
  | some (f, below) =>
    let v := lookupVar st.numVars (f.name1, f.name2) + f.step
    let vars2 := setVar st.numVars (f.name1, f.name2) v
    if (0 ≤ f.step ∧ v ≤ f.endValue) ∨ (f.step < 0 ∧ f.endValue ≤ v) then
      { st with numVars := vars2, forStack := f :: below,
                currentLine := f.lineIndex, statementPos := some f.resumePos }
    else
      { st with numVars := vars2, forStack := below }

/-- `statement_gosub` (basic.c 950-975, part_002 1316-1340): after the
overflow check the return frame `(current_line, cursor-after-number)` is
pushed, and only then is the target looked up; an unknown target reports
"Target line not found" with the frame still on the stack. -/
def statementGosub (target : Int) (afterPos : Nat) (st : InterpState) :
    InterpState :=
  if maxGosub ≤ st.gosubStack.length then
    runtimeErrorSt st "GOSUB stack overflow"
  else
    let st1 := { st with gosubStack := (st.currentLine, afterPos) :: st.gosubStack }
    let st2 := { st1 with currentLine := findLineClassic st1.lineNums target }
    if st2.currentLine < 0 then runtimeErrorSt st2 "Target line not found"
    else { st2 with statementPos := none }

deriving instance DecidableEq for Except

/-- A sample two-frame FOR stack (inner loop `I` on top of outer loop `J`)
used to exercise the `NEXT` frame-selection theorem on concrete data. -/
def sampleInner : ForFrame :=
  { name1 := 'I', name2 := ' ', endValue := 3, step := 1,
    lineIndex := 2, resumePos := 9 }

/-- The outer frame of the sample FOR stack. -/
def sampleOuter : ForFrame :=
  { name1 := 'J', name2 := ' ', endValue := 5, step := 1,
    lineIndex := 1, resumePos := 4 }

/-- An interpreter state whose FOR stack is `[sampleInner, sampleOuter]`. -/
def sampleNextState : InterpState :=
  { forStack := [sampleInner, sampleOuter] }

theorem lookupVar_setVar_self (vars : List ((Char × Char) × Rat))
    (k : Char × Char) (q : Rat) : lookupVar (setVar vars k q) k = q := by
  induction vars with
  | nil => simp [setVar, lookupVar]
  | cons p rest ih =>
    obtain ⟨k2, q2⟩ := p
    by_cases hk : k2 = k
    · simp [setVar, lookupVar, hk]
    · simp [setVar, lookupVar, hk, ih]

theorem excBind_ok {α β : Type} (x : Except String α) (f : α → Except String β)
    (b : β) (h : x.bind f = .ok b) : ∃ a, x = .ok a ∧ f a = .ok b := by
  cases x with
  | error e => simp [Except.bind] at h
  | ok a => exact ⟨a, rfl, by simpa [Except.bind] using h⟩

theorem truncToInt_natCast (n : Nat) : truncToInt (n : Rat) = n := by
  unfold truncToInt
  rw [if_neg (by exact not_lt.mpr (by positivity)), Int.floor_natCast]

/-- C1: every comparison expression (`=`, `<>`, `<=`, `>=`, `<`, `>`)
that evaluates without error yields exactly the number -1 (comparison
holds) or 0 (it does not), and that number is an ordinary expression
value: comparisons are `BExpr` forms like any other (so they occur as
PRINT items and operands), and adding the literal 0 to one re-evaluates
to the very same value. -/
theorem comparison_yields_cbm_boolean (op : CmpOp) (a b : BExpr) (v : BValue)
    (h : evalBExpr (.cmp op a b) = .ok v) :
    (v = .num (-1) ∨ v = .num 0) ∧
      evalBExpr (.add (.cmp op a b) (.lit (.num 0))) = .ok v := by
  have h1 : ∃ l r, evalBExpr a = .ok l ∧ evalBExpr b = .ok r ∧
      evalCmp op l r = .ok v := by
    have h' := h
    rw [show evalBExpr (.cmp op a b) =
        (evalBExpr a).bind (fun l => (evalBExpr b).bind (fun r => evalCmp op l r))
      from rfl] at h'
    obtain ⟨l, hl, h2⟩ := excBind_ok _ _ _ h'
    obtain ⟨r, hr, h3⟩ := excBind_ok _ _ _ h2
    exact ⟨l, r, hl, hr, h3⟩
  obtain ⟨l, r, hl, hr, hcmp⟩ := h1
  have hv : v = BValue.num (-1) ∨ v = BValue.num 0 := by
    cases op <;> cases l <;> cases r <;> simp [evalCmp] at hcmp <;>
      (try (split at hcmp <;> simp [← hcmp]))
  refine ⟨hv, ?_⟩
  obtain ⟨q, hq, _⟩ : ∃ q, v = BValue.num q ∧ (q = -1 ∨ q = 0) := by
    rcases hv with h2 | h2 <;> exact ⟨_, h2, by simp [h2]⟩
  rw [show evalBExpr (.add (.cmp op a b) (.lit (.num 0))) =
      (evalBExpr (.cmp op a b)).bind (fun l =>
        (evalBExpr (.lit (.num 0))).bind (fun r =>
          match l, r with
          | .num q1, .num q2 => .ok (.num (q1 + q2))
          | .str s1, .str s2 => .ok (.str (concatStr s1 s2))
          | .num _, .str _ => .error "String value required"
          | .str _, .num _ => .error "String value required"))
    from rfl]
  rw [h, hq]
  simp [evalBExpr, Except.bind]

/-- Witness for C1 at the concrete comparison `1 < 2`. -/
theorem comparison_yields_cbm_boolean_witness :
    (BValue.num (-1) = BValue.num (-1) ∨ BValue.num (-1) = BValue.num 0) ∧
      evalBExpr (.add (.cmp .clt (.lit (.num 1)) (.lit (.num 2))) (.lit (.num 0))) =
        .ok (BValue.num (-1)) :=
  comparison_yields_cbm_boolean .clt (.lit (.num 1)) (.lit (.num 2))
    (BValue.num (-1)) (by decide)

/-- C6: `AND` and `OR` require both operands numeric and return the
bitwise and/or of the two `(int)` truncations; `5 AND 3` is 1 and
`5 OR 2` is 7; the operators are ordinary expression levels, so they
combine comparisons inside an IF condition
(`eval_condition` of `IF 5>3 AND 2<4` is true). -/
theorem and_or_bitwise_on_truncations (a b : BExpr) (v : BValue) :
    (evalBExpr (.band a b) = .ok v →
      ∃ q1 q2, evalBExpr a = .ok (.num q1) ∧ evalBExpr b = .ok (.num q2) ∧
        v = .num ((Int.land (truncToInt q1) (truncToInt q2) : Int) : Rat)) ∧
    (evalBExpr (.bor a b) = .ok v →
      ∃ q1 q2, evalBExpr a = .ok (.num q1) ∧ evalBExpr b = .ok (.num q2) ∧
        v = .num ((Int.lor (truncToInt q1) (truncToInt q2) : Int) : Rat)) ∧
    evalBExpr (.band (.lit (.num 5)) (.lit (.num 3))) = .ok (.num 1) ∧
    evalBExpr (.bor (.lit (.num 5)) (.lit (.num 2))) = .ok (.num 7) ∧
    evalCondition (.band (.cmp .cgt (.lit (.num 5)) (.lit (.num 3)))
        (.cmp .clt (.lit (.num 2)) (.lit (.num 4)))) = .ok true := by
  refine ⟨?_, ?_, by decide, by decide, by decide⟩
  · intro h
    rw [show evalBExpr (.band a b) =
        (evalBExpr a).bind (fun l => (evalBExpr b).bind (fun r =>
          (ensureNum l).bind (fun q1 => (ensureNum r).bind (fun q2 =>
            .ok (.num ((Int.land (truncToInt q1) (truncToInt q2) : Int) : Rat))))))
      from rfl] at h
    obtain ⟨l, hl, h2⟩ := excBind_ok _ _ _ h
    obtain ⟨r, hr, h3⟩ := excBind_ok _ _ _ h2
    obtain ⟨q1, hq1, h4⟩ := excBind_ok _ _ _ h3
    obtain ⟨q2, hq2, h5⟩ := excBind_ok _ _ _ h4
    cases l with
    | str s => simp [ensureNum] at hq1
    | num q =>
      cases r with
      | str s => simp [ensureNum] at hq2
      | num q' =>
        simp [ensureNum] at hq1 hq2
        subst hq1; subst hq2
        exact ⟨q, q', hl, hr, by simpa using h5.symm⟩
  · intro h
    rw [show evalBExpr (.bor a b) =
        (evalBExpr a).bind (fun l => (evalBExpr b).bind (fun r =>
          (ensureNum l).bind (fun q1 => (ensureNum r).bind (fun q2 =>
            .ok (.num ((Int.lor (truncToInt q1) (truncToInt q2) : Int) : Rat))))))
      from rfl] at h
    obtain ⟨l, hl, h2⟩ := excBind_ok _ _ _ h
    obtain ⟨r, hr, h3⟩ := excBind_ok _ _ _ h2
    obtain ⟨q1, hq1, h4⟩ := excBind_ok _ _ _ h3
    obtain ⟨q2, hq2, h5⟩ := excBind_ok _ _ _ h4
    cases l with
    | str s => simp [ensureNum] at hq1
    | num q =>
      cases r with
      | str s => simp [ensureNum] at hq2
      | num q' =>
        simp [ensureNum] at hq1 hq2
        subst hq1; subst hq2
        exact ⟨q, q', hl, hr, by simpa using h5.symm⟩

/-- Witness for C6 at `6 AND 3` (= 2), `6 OR 3` (= 7) and the concrete
examples carried inside the theorem itself. -/
theorem and_or_bitwise_on_truncations_witness :
    (∃ q1 q2, evalBExpr (BExpr.lit (.num 6)) = .ok (.num q1) ∧
        evalBExpr (BExpr.lit (.num 3)) = .ok (.num q2) ∧
        BValue.num 2 = .num ((Int.land (truncToInt q1) (truncToInt q2) : Int) : Rat)) ∧
    (∃ q1 q2, evalBExpr (BExpr.lit (.num 6)) = .ok (.num q1) ∧
        evalBExpr (BExpr.lit (.num 3)) = .ok (.num q2) ∧
        BValue.num 7 = .num ((Int.lor (truncToInt q1) (truncToInt q2) : Int) : Rat)) ∧
    evalBExpr (.band (.lit (.num 5)) (.lit (.num 3))) = .ok (.num 1) ∧
    evalBExpr (.bor (.lit (.num 5)) (.lit (.num 2))) = .ok (.num 7) ∧
    evalCondition (.band (.cmp .cgt (.lit (.num 5)) (.lit (.num 3)))
        (.cmp .clt (.lit (.num 2)) (.lit (.num 4)))) = .ok true :=
  ⟨(and_or_bitwise_on_truncations (.lit (.num 6)) (.lit (.num 3)) (.num 2)).1
      (by decide),
   (and_or_bitwise_on_truncations (.lit (.num 6)) (.lit (.num 3)) (.num 7)).2.1
      (by decide),
   (and_or_bitwise_on_truncations (.lit (.num 6)) (.lit (.num 3)) (.num 2)).2.2.1,
   (and_or_bitwise_on_truncations (.lit (.num 6)) (.lit (.num 3)) (.num 2)).2.2.2.1,
   (and_or_bitwise_on_truncations (.lit (.num 6)) (.lit (.num 3)) (.num 2)).2.2.2.2⟩

/-- For an in-range count, `LEFT$` is an exact prefix. -/
theorem leftFun_take (s : List Char) (n : Nat) (hn : n ≤ s.length) :
    leftFun s (n : Int) = s.take n := by
  have hlen1 : (if (n : Int) < 0 then 0 else (n : Int)) = (n : Int) := if_neg (by omega)
  simp only [leftFun, hlen1]
  rw [if_neg (show ¬((s.length : Int) < (n : Int)) by omega)]
  simp

theorem midFun_tail (s : List Char) (n : Nat) (hn : n ≤ s.length) :
    midFun s ((n : Int) + 1) = s.drop n := by
  have hstart : (if ((n : Int) + 1) < 1 then 1 else ((n : Int) + 1)) = (n : Int) + 1 :=
    if_neg (by omega)
  have hlen : (if (s.length : Int) < 0 then 0 else (s.length : Int)) = (s.length : Int) :=
    if_neg (by omega)
  simp only [midFun, hstart, hlen, add_sub_cancel_right]
  by_cases hns : n = s.length
  · rw [if_pos (by omega)]
    rw [hns, List.drop_length]
  · rw [if_neg (by omega)]
    rw [show ((n : Int)).toNat = n by omega]
    apply List.take_of_length_le
    simp only [List.length_drop]
    split <;> omega

theorem concat_take_drop (s : List Char) (n : Nat) (hcap : s.length ≤ maxStrCap) :
    concatStr (s.take n) (s.drop n) = s := by
  unfold concatStr
  have h1 : (s.drop n).length ≤ maxStrCap - (s.take n).length := by
    simp only [List.length_take, List.length_drop]
    unfold maxStrCap at hcap ⊢
    omega
  rw [List.take_of_length_le h1, List.take_append_drop]

/-- C8: for every string `s` of length at most the 255-character string
capacity and every natural `n ≤ LEN(s)`, the BASIC expression
`LEFT$(s, n) + MID$(s, n + 1)` evaluates to exactly `s`: `LEFT$` clamps
its count to `[0, LEN(s)]`, `MID$` with the length omitted takes the
1-indexed position `n + 1` to the end, and `+` concatenates (its
truncation at capacity never fires because the two pieces total
`LEN(s) ≤ 255`). -/
theorem left_mid_concatenation_identity (s : List Char) (n : Nat)
    (hcap : s.length ≤ maxStrCap) (hn : n ≤ s.length) :
    evalBExpr (.add (.leftStr (.lit (.str s)) (.lit (.num (n : Rat))))
        (.midStr (.lit (.str s)) (.lit (.num ((n : Rat) + 1))))) = .ok (.str s) := by
  have htr2 : truncToInt ((n : Rat) + 1) = (n : Int) + 1 := by
    have hc : ((n : Rat) + 1) = ((n + 1 : Nat) : Rat) := by push_cast; ring
    rw [hc, truncToInt_natCast]
    push_cast
    ring
  have hL : evalBExpr (.leftStr (.lit (.str s)) (.lit (.num (n : Rat)))) =
      .ok (.str (s.take n)) := by
    rw [show evalBExpr (.leftStr (.lit (.str s)) (.lit (.num (n : Rat)))) =
        .ok (.str (leftFun s (truncToInt (n : Rat)))) from rfl,
      truncToInt_natCast, leftFun_take s n hn]
  have hM : evalBExpr (.midStr (.lit (.str s)) (.lit (.num ((n : Rat) + 1)))) =
      .ok (.str (s.drop n)) := by
    rw [show evalBExpr (.midStr (.lit (.str s)) (.lit (.num ((n : Rat) + 1)))) =
        .ok (.str (midFun s (truncToInt ((n : Rat) + 1)))) from rfl,
      htr2, midFun_tail s n hn]
  rw [show evalBExpr (.add (.leftStr (.lit (.str s)) (.lit (.num (n : Rat))))
        (.midStr (.lit (.str s)) (.lit (.num ((n : Rat) + 1))))) =
      (evalBExpr (.leftStr (.lit (.str s)) (.lit (.num (n : Rat))))).bind
        (fun l => (evalBExpr (.midStr (.lit (.str s))
            (.lit (.num ((n : Rat) + 1))))).bind
          (fun r =>
            match l, r with
            | .num q1, .num q2 => .ok (.num (q1 + q2))
            | .str s1, .str s2 => .ok (.str (concatStr s1 s2))
            | .num _, .str _ => .error "String value required"
            | .str _, .num _ => .error "String value required"))
    from rfl, hL, hM]
  simp [Except.bind, concat_take_drop s n hcap]

/-- Witness for C8 on `s = "ABC"`, `n = 1`. -/
theorem left_mid_concatenation_identity_witness :
    evalBExpr (.add (.leftStr (.lit (.str ['A', 'B', 'C']))
        (.lit (.num ((1 : Nat) : Rat))))
      (.midStr (.lit (.str ['A', 'B', 'C']))
        (.lit (.num (((1 : Nat) : Rat) + 1))))) = .ok (.str ['A', 'B', 'C']) :=
  left_mid_concatenation_identity ['A', 'B', 'C'] 1 (by decide) (by decide)

theorem printCharCol_lt (col : Nat) (c : Char) : printCharCol col c < printWidth := by
  unfold printCharCol printWidth
  split
  · omega
  · split <;> omega

theorem printStrCol_lt (s : List Char) (col : Nat) (h : col < printWidth) :
    printStrCol s col < printWidth := by
  induction s generalizing col with
  | nil => simpa [printStrCol] using h
  | cons c cs ih =>
    simpa [printStrCol, List.foldl_cons] using
      ih (printCharCol col c) (printCharCol_lt col c)

theorem printSpacesCol_lt (count col : Nat) (h : col < printWidth) :
    printSpacesCol count col < printWidth := by
  induction count generalizing col with
  | zero => simpa [printSpacesCol] using h
  | succ k ih =>
    unfold printSpacesCol
    apply ih
    simp only [printWidth]
    split <;> omega

theorem tmod80_lb (n : Int) : -80 < Int.tmod n 80 := by
  cases n with
  | ofNat m =>
    have h := Int.tmod_nonneg (a := Int.ofNat m) 80 (Int.ofNat_nonneg m)
    omega
  | negSucc m =>
    have h1 : Int.tmod (Int.negSucc m) 80 = -(((m + 1) % 80 : Nat) : Int) := rfl
    have h2 : (m + 1) % 80 < 80 := Nat.mod_lt _ (by omega)
    omega

theorem tabCol_lt (n : Int) (col : Nat) (h : col < printWidth) :
    tabCol n col < printWidth := by
  have h1 := tmod80_lb n
  have h2 := Int.tmod_lt_of_pos n (show (0:Int) < 80 by omega)
  simp only [printWidth] at h ⊢
  simp only [tabCol]
  split_ifs <;> omega

/-- C3 (amended): between statements the print column stays in
`[0, PRINT_WIDTH)` for everything that goes through the wrapping paths —
string output of `print_value`, the spaces of `print_spaces` (comma tab
zones), and `TAB` — but a numeric PRINT item only adds the length of its
`%g` rendering to `print_col` with no wrap check, so numeric output can
push the column to the width or beyond (see the counterexample). -/
theorem print_column_wraps_for_nonnumeric (s : List Char) (count col : Nat)
    (n : Int) (h : col < printWidth) :
    printStrCol s col < printWidth ∧
    printSpacesCol count col < printWidth ∧
    tabCol n col < printWidth ∧
    printValueCol (.str s) col < printWidth ∧
    (∀ q : Rat, printValueCol (.num q) col = col + (formatG q).length) :=
  ⟨printStrCol_lt s col h, printSpacesCol_lt count col h, tabCol_lt n col h,
    printStrCol_lt s col h, fun _ => rfl⟩

/-- Witness for the amended C3 at column 79. -/
theorem print_column_wraps_for_nonnumeric_witness :
    printStrCol ['H', 'I'] 79 < printWidth ∧
    printSpacesCol 15 79 < printWidth ∧
    tabCol (-5) 79 < printWidth ∧
    printValueCol (.str ['H', 'I']) 79 < printWidth ∧
    (∀ q : Rat, printValueCol (.num q) 79 = 79 + (formatG q).length) :=
  print_column_wraps_for_nonnumeric ['H', 'I'] 15 79 (-5) (by decide)

/-- C3 fails as stated: printing the numeric value 5 from the legal
between-statements column 79 leaves `print_col = 80`, outside
`[0, PRINT_WIDTH)`, because the numeric branch of `print_value` adds the
rendered length with no wrap and no newline. -/
theorem print_column_numeric_counterexample :
    printValueCol (.num 5) 79 = 80 ∧ 79 < printWidth ∧
      ¬ printValueCol (.num 5) 79 < printWidth := by decide

/-- C2 (amended): the process exit code is 0 whenever the program loaded,
regardless of how the run ended — normal completion and runtime-error
termination alike (`main` never consults the run outcome) — and 1 on a
usage error or load error. -/
theorem exit_code_semantics (e1 e2 : Bool) :
    mainExitCode true true e1 = 0 ∧
    mainExitCode true true e1 = mainExitCode true true e2 ∧
    mainExitCode true false e1 = 1 ∧
    mainExitCode false e1 e2 = 1 := by
  cases e1 <;> cases e2 <;> exact ⟨rfl, rfl, rfl, rfl⟩

/-- C2 fails as stated: a run that terminates through `runtime_error`
(here: `NEXT` with an empty FOR stack, which halts the run with
"NEXT without FOR") still makes `main` return 0, not a non-zero code. -/
theorem exit_code_runtime_error_counterexample :
    (statementNext none ({ forStack := [] } : InterpState)).halted = true ∧
    (statementNext none ({ forStack := [] } : InterpState)).errMsg =
      some "NEXT without FOR" ∧
    mainExitCode true true true = 0 :=
  ⟨rfl, rfl, rfl⟩

/-- C7 (amended): the subscript is coerced by the C `(int)` cast, i.e.
truncation toward zero of `x + 0.00001` — not `floor` — and the
reference fails with "Negative array index" exactly when that truncated
integer is negative; truncation agrees with the claimed `floor` whenever
`x ≥ 0`; the coerced value drives allocation:
`max(subscript + 1, 11)` on first use and growth to `subscript + 1` with
a zero-filled tail thereafter. -/
theorem subscript_trunc_semantics (x : Rat) :
    (subscriptCheck x =
      if truncToInt (x + 1 / 100000) < 0 then Except.error "Negative array index"
      else Except.ok (truncToInt (x + 1 / 100000))) ∧
    (0 ≤ x → truncToInt (x + 1 / 100000) = ⌊x + 1 / 100000⌋) ∧
    (∀ i : Int, firstUseArraySize i = max (i + 1) 11) ∧
    (∀ (i : Nat) (arr : List BValue), arr.length ≤ i →
      growArray arr i = arr ++ List.replicate (i + 1 - arr.length) (BValue.num 0)) := by
  refine ⟨rfl, ?_, ?_, ?_⟩
  · intro hx
    unfold truncToInt
    rw [if_neg (by intro hc; nlinarith [hc])]
  · intro i
    unfold firstUseArraySize defaultArraySize
    omega
  · intro i arr hle
    unfold growArray
    rw [if_neg (by omega)]

/-- Witness for the amended C7 at `x = 3` and a fresh empty array. -/
theorem subscript_trunc_semantics_witness :
    (subscriptCheck 3 =
      if truncToInt (3 + 1 / 100000) < 0 then Except.error "Negative array index"
      else Except.ok (truncToInt (3 + 1 / 100000))) ∧
    truncToInt ((3 : Rat) + 1 / 100000) = ⌊(3 : Rat) + 1 / 100000⌋ ∧
    firstUseArraySize 4 = max (4 + 1) 11 ∧
    growArray ([] : List BValue) 0 =
      ([] : List BValue) ++ List.replicate (0 + 1 - ([] : List BValue).length)
        (BValue.num 0) :=
  ⟨(subscript_trunc_semantics 3).1,
   (subscript_trunc_semantics 3).2.1 (by decide),
   (subscript_trunc_semantics 3).2.2.1 4,
   (subscript_trunc_semantics 3).2.2.2 0 [] (by decide)⟩

/-- C7 fails as stated: at subscript `x = -1/2` the claimed coercion
`floor(x + 0.00001) = -1` is negative, so the claim predicts the
"Negative array index" error, but the code's `(int)` cast truncates
toward zero and the reference succeeds with index 0. -/
theorem subscript_floor_counterexample :
    subscriptCheck (-(1 : Rat)/2) = .ok 0 ∧ ⌊(-(1 : Rat)/2 + 1/100000)⌋ = -1 := by
  have hx : (-(1 : Rat)/2 + 1/100000) = -49999/100000 := by norm_num
  have hfl : ⌊(-49999/100000 : Rat)⌋ = -1 := by
    rw [Int.floor_eq_iff]
    norm_num
  have hfl2 : ⌊(49999/100000 : Rat)⌋ = 0 := by
    rw [Int.floor_eq_iff]
    norm_num
  have hneg : (-49999/100000 : Rat) < 0 := by norm_num
  have htr : truncToInt (-49999/100000 : Rat) = 0 := by
    unfold truncToInt
    rw [if_pos hneg]
    rw [show -(-49999/100000 : Rat) = 49999/100000 by norm_num, hfl2]
    norm_num
  constructor
  · unfold subscriptCheck coerceSubscript
    rw [hx, htr]
    norm_num
  · rw [hx, hfl]

/-- C10: when `GOSUB n` runs with stack space available and no line
numbered `n` exists, the return frame `(current line, cursor after the
number)` is pushed before the lookup fails, so after the diagnostic
"Target line not found" the GOSUB stack is exactly one entry deeper than
before the statement. -/
theorem gosub_pushes_frame_before_target_check (target : Int) (afterPos : Nat)
    (st : InterpState) (hroom : st.gosubStack.length < maxGosub)
    (hmiss : findLineClassic st.lineNums target = -1) :
    statementGosub target afterPos st =
      { st with gosubStack := (st.currentLine, afterPos) :: st.gosubStack,
                currentLine := -1, halted := true,
                errMsg := some "Target line not found" } ∧
    (statementGosub target afterPos st).gosubStack.length =
      st.gosubStack.length + 1 := by
  have hnot : ¬(maxGosub ≤ st.gosubStack.length) := by omega
  constructor
  · obtain ⟨ln, nv, gs, fs, cl, sp, ha, em⟩ := st
    simp only [statementGosub, runtimeErrorSt] at *
    rw [if_neg hnot]
    simp only [hmiss]
    rw [if_pos (by omega)]
  · obtain ⟨ln, nv, gs, fs, cl, sp, ha, em⟩ := st
    simp only [statementGosub, runtimeErrorSt] at *
    rw [if_neg hnot]
    simp only [hmiss]
    rw [if_pos (by omega)]
    simp

/-- Witness for C10: `GOSUB 100` from line 0 of an empty store. -/
theorem gosub_pushes_frame_before_target_check_witness :
    statementGosub 100 7 {} =
      { ({} : InterpState) with
        gosubStack := (({} : InterpState).currentLine, 7) ::
          ({} : InterpState).gosubStack,
        currentLine := -1, halted := true,
        errMsg := some "Target line not found" } ∧
    (statementGosub 100 7 ({} : InterpState)).gosubStack.length =
      ({} : InterpState).gosubStack.length + 1 :=
  gosub_pushes_frame_before_target_check 100 7 {} (by decide) (by decide)

theorem popToFrame_none_cons (f : ForFrame) (rest : List ForFrame) :
    popToFrame none (f :: rest) = some (f, rest) := rfl

theorem statementNext_eq_of_pop (st : InterpState) (name : Option (Char × Char))
    (f : ForFrame) (rest : List ForFrame)
    (h : popToFrame name st.forStack = some (f, rest)) :
    statementNext name st =
      if (0 ≤ f.step ∧ lookupVar st.numVars (f.name1, f.name2) + f.step ≤ f.endValue) ∨
         (f.step < 0 ∧ f.endValue ≤ lookupVar st.numVars (f.name1, f.name2) + f.step) then
        { st with numVars := setVar st.numVars (f.name1, f.name2)
                    (lookupVar st.numVars (f.name1, f.name2) + f.step),
                  forStack := f :: rest, currentLine := f.lineIndex,
                  statementPos := some f.resumePos }
      else
        { st with numVars := setVar st.numVars (f.name1, f.name2)
                    (lookupVar st.numVars (f.name1, f.name2) + f.step),
                  forStack := rest } := by
  unfold statementNext
  rw [h]

/-- C4: `statement_for` performs no initial boundary check: with stack
space available, `FOR v = start TO end [STEP s]` assigns `start` to `v`
and pushes the frame unconditionally — for every `start`, `end`, `step`,
in particular when `start > end` — leaving the cursor and halt flag
untouched, so the body runs at least once; and for `FOR I = 1 TO 0`
(default step 1) the subsequent `NEXT` adds the step (`I = 2`), fails the
bound test, pops the frame and falls through without restoring the resume
cursor, so the body runs exactly once. -/
theorem for_loop_no_initial_check (k : Char × Char) (startv endv stepv : Rat)
    (resume : Nat) (st : InterpState) (hroom : st.forStack.length < maxFor) :
    (statementFor k startv endv stepv resume st =
      { st with numVars := setVar st.numVars k startv,
                forStack := { name1 := k.1, name2 := k.2, endValue := endv,
                              step := stepv, lineIndex := st.currentLine,
                              resumePos := resume } :: st.forStack }) ∧
    lookupVar (statementFor k startv endv stepv resume st).numVars k = startv ∧
    (statementFor k 1 0 1 resume st).statementPos = st.statementPos ∧
    (statementFor k 1 0 1 resume st).halted = st.halted ∧
    (statementNext none (statementFor k 1 0 1 resume st)).forStack = st.forStack ∧
    (statementNext none (statementFor k 1 0 1 resume st)).statementPos =
      st.statementPos ∧
    (statementNext none (statementFor k 1 0 1 resume st)).halted = st.halted ∧
    lookupVar (statementNext none (statementFor k 1 0 1 resume st)).numVars k =
      1 + 1 := by
  have hnot : ¬(maxFor ≤ st.forStack.length) := by omega
  have hfor : ∀ s e p : Rat, statementFor k s e p resume st =
      { st with numVars := setVar st.numVars k s,
                forStack := { name1 := k.1, name2 := k.2, endValue := e,
                              step := p, lineIndex := st.currentLine,
                              resumePos := resume } :: st.forStack } := by
    intro s e p
    unfold statementFor
    rw [if_neg hnot]
  have hlk : lookupVar (setVar st.numVars k 1) (k.1, k.2) = 1 := by
    rw [Prod.mk.eta]
    exact lookupVar_setVar_self _ _ _
  have hpop : popToFrame none (statementFor k 1 0 1 resume st).forStack =
      some ({ name1 := k.1, name2 := k.2, endValue := 0, step := 1,
              lineIndex := st.currentLine, resumePos := resume }, st.forStack) := by
    rw [hfor 1 0 1]
    rfl
  have hnexteq : statementNext none (statementFor k 1 0 1 resume st) =
      { st with numVars := setVar (setVar st.numVars k 1) (k.1, k.2) (1 + 1),
                forStack := st.forStack } := by
    rw [statementNext_eq_of_pop _ none _ _ hpop]
    rw [hfor 1 0 1]
    simp only [hlk]
    rw [if_neg (by norm_num)]
  refine ⟨hfor startv endv stepv, ?_, ?_, ?_, ?_, ?_, ?_, ?_⟩
  · rw [hfor startv endv stepv]
    exact lookupVar_setVar_self _ _ _
  · rw [hfor 1 0 1]
  · rw [hfor 1 0 1]
  · rw [hnexteq]
  · rw [hnexteq]
  · rw [hnexteq]
  · rw [hnexteq]
    show lookupVar (setVar (setVar st.numVars k 1) (k.1, k.2) (1 + 1)) k = 1 + 1
    rw [Prod.mk.eta]
    exact lookupVar_setVar_self _ _ _

/-- Witness for C4: `FOR I = 1 TO 0` then `NEXT` on the empty state. -/
theorem for_loop_no_initial_check_witness :
    lookupVar (statementFor ('I', ' ') 1 0 1 7 {}).numVars ('I', ' ') = 1 ∧
    (statementNext none (statementFor ('I', ' ') 1 0 1 7 {})).forStack = [] ∧
    lookupVar (statementNext none (statementFor ('I', ' ') 1 0 1 7 {})).numVars
      ('I', ' ') = 1 + 1 :=
  ⟨(for_loop_no_initial_check ('I', ' ') 1 0 1 7 {} (by decide)).2.1,
   (for_loop_no_initial_check ('I', ' ') 1 0 1 7 {} (by decide)).2.2.2.2.1,
   (for_loop_no_initial_check ('I', ' ') 1 0 1 7 {} (by decide)).2.2.2.2.2.2.2⟩

theorem frameMatches_false (k : Char × Char) (g : ForFrame)
    (h : ¬(g.name1 = k.1 ∧ g.name2 = k.2)) :
    frameMatches (some k) g = false := by
  simp only [frameMatches]
  simp only [Bool.and_eq_false_iff, decide_eq_false_iff_not]
  tauto

theorem popToFrame_skip (k : Char × Char) (pre : List ForFrame) (f : ForFrame)
    (rest : List ForFrame)
    (hpre : ∀ g ∈ pre, ¬(g.name1 = k.1 ∧ g.name2 = k.2))
    (h1 : f.name1 = k.1) (h2 : f.name2 = k.2) :
    popToFrame (some k) (pre ++ f :: rest) = some (f, rest) := by
  induction pre with
  | nil =>
    simp [popToFrame, frameMatches, h1, h2]
  | cons g gs ih =>
    have hg := frameMatches_false k g (hpre g (by simp))
    simp only [List.cons_append, popToFrame, hg, Bool.false_eq_true, if_false]
    exact ih (fun g2 hg2 => hpre g2 (by simp [hg2]))

theorem popToFrame_no_match (k : Char × Char) (l : List ForFrame)
    (h : ∀ g ∈ l, ¬(g.name1 = k.1 ∧ g.name2 = k.2)) :
    popToFrame (some k) l = none := by
  induction l with
  | nil => rfl
  | cons g gs ih =>
    have hg := frameMatches_false k g (h g (by simp))
    simp only [popToFrame, hg, Bool.false_eq_true, if_false]
    exact ih (fun g2 hg2 => h g2 (by simp [hg2]))

/-- C5: `statement_next` selects its frame exactly as described: with no
name it acts on the innermost (topmost) frame; with a name it acts on the
topmost frame whose saved two-letter key matches, discarding every frame
above it; it then adds the step to the loop variable and either resumes
at the frame's saved `(line index, resume cursor)` when
`step ≥ 0 ∧ v ≤ end` or `step < 0 ∧ v ≥ end`, or pops the frame and
falls through; with no matching frame the diagnostic is
"NEXT without FOR". -/
theorem next_frame_selection (st : InterpState) (k : Char × Char) :
    (∀ f rest, st.forStack = f :: rest →
      statementNext none st =
        (if (0 ≤ f.step ∧ lookupVar st.numVars (f.name1, f.name2) + f.step ≤ f.endValue) ∨
            (f.step < 0 ∧ f.endValue ≤ lookupVar st.numVars (f.name1, f.name2) + f.step) then
          { st with numVars := setVar st.numVars (f.name1, f.name2)
                      (lookupVar st.numVars (f.name1, f.name2) + f.step),
                    forStack := f :: rest, currentLine := f.lineIndex,
                    statementPos := some f.resumePos }
        else
          { st with numVars := setVar st.numVars (f.name1, f.name2)
                      (lookupVar st.numVars (f.name1, f.name2) + f.step),
                    forStack := rest })) ∧
    (∀ pre f rest, st.forStack = pre ++ f :: rest →
      (∀ g ∈ pre, ¬(g.name1 = k.1 ∧ g.name2 = k.2)) →
      f.name1 = k.1 → f.name2 = k.2 →
      statementNext (some k) st =
        (if (0 ≤ f.step ∧ lookupVar st.numVars (f.name1, f.name2) + f.step ≤ f.endValue) ∨
            (f.step < 0 ∧ f.endValue ≤ lookupVar st.numVars (f.name1, f.name2) + f.step) then
          { st with numVars := setVar st.numVars (f.name1, f.name2)
                      (lookupVar st.numVars (f.name1, f.name2) + f.step),
                    forStack := f :: rest, currentLine := f.lineIndex,
                    statementPos := some f.resumePos }
        else
          { st with numVars := setVar st.numVars (f.name1, f.name2)
                      (lookupVar st.numVars (f.name1, f.name2) + f.step),
                    forStack := rest })) ∧
    ((∀ g ∈ st.forStack, ¬(g.name1 = k.1 ∧ g.name2 = k.2)) →
      statementNext (some k) st = runtimeErrorSt st "NEXT without FOR") := by
  refine ⟨?_, ?_, ?_⟩
  · intro f rest h
    exact statementNext_eq_of_pop st none f rest (by rw [h, popToFrame_none_cons])
  · intro pre f rest h hpre h1 h2
    exact statementNext_eq_of_pop st (some k) f rest
      (by rw [h, popToFrame_skip k pre f rest hpre h1 h2])
  · intro h
    unfold statementNext
    rw [popToFrame_no_match k st.forStack h]

/-- Witness for C5 on the sample two-frame stack: `NEXT` with no name
acts on the inner frame `I`; `NEXT J` discards `I` and acts on `J`;
`NEXT Z` dies with "NEXT without FOR". -/
theorem next_frame_selection_witness :
    (statementNext none sampleNextState =
      (if (0 ≤ sampleInner.step ∧
            lookupVar sampleNextState.numVars (sampleInner.name1, sampleInner.name2) +
              sampleInner.step ≤ sampleInner.endValue) ∨
          (sampleInner.step < 0 ∧
            sampleInner.endValue ≤
              lookupVar sampleNextState.numVars (sampleInner.name1, sampleInner.name2) +
                sampleInner.step) then
        { sampleNextState with
          numVars := setVar sampleNextState.numVars
            (sampleInner.name1, sampleInner.name2)
            (lookupVar sampleNextState.numVars (sampleInner.name1, sampleInner.name2) +
              sampleInner.step),
          forStack := sampleInner :: [sampleOuter],
          currentLine := sampleInner.lineIndex,
          statementPos := some sampleInner.resumePos }
      else
        { sampleNextState with
          numVars := setVar sampleNextState.numVars
            (sampleInner.name1, sampleInner.name2)
            (lookupVar sampleNextState.numVars (sampleInner.name1, sampleInner.name2) +
              sampleInner.step),
          forStack := [sampleOuter] })) ∧
    (statementNext (some ('J', ' ')) sampleNextState =
      (if (0 ≤ sampleOuter.step ∧
            lookupVar sampleNextState.numVars (sampleOuter.name1, sampleOuter.name2) +
              sampleOuter.step ≤ sampleOuter.endValue) ∨
          (sampleOuter.step < 0 ∧
            sampleOuter.endValue ≤
              lookupVar sampleNextState.numVars (sampleOuter.name1, sampleOuter.name2) +
                sampleOuter.step) then
        { sampleNextState with
          numVars := setVar sampleNextState.numVars
            (sampleOuter.name1, sampleOuter.name2)
            (lookupVar sampleNextState.numVars (sampleOuter.name1, sampleOuter.name2) +
              sampleOuter.step),
          forStack := sampleOuter :: [],
          currentLine := sampleOuter.lineIndex,
          statementPos := some sampleOuter.resumePos }
      else
        { sampleNextState with
          numVars := setVar sampleNextState.numVars
            (sampleOuter.name1, sampleOuter.name2)
            (lookupVar sampleNextState.numVars (sampleOuter.name1, sampleOuter.name2) +
              sampleOuter.step),
          forStack := [] })) ∧
    (statementNext (some ('Z', ' ')) sampleNextState =
      runtimeErrorSt sampleNextState "NEXT without FOR") :=
  ⟨(next_frame_selection sampleNextState ('J', ' ')).1 sampleInner [sampleOuter] rfl,
   (next_frame_selection sampleNextState ('J', ' ')).2.1 [sampleInner] sampleOuter []
     rfl (by decide) rfl rfl,
   (next_frame_selection sampleNextState ('Z', ' ')).2.2 (by decide)⟩

theorem findLineAux_eq (nums : List Int) (number : Int) (i : Int) :
    findLineAux nums number i =
      if number ∈ nums then i + (nums.indexOf number : Int) else -1 := by
  induction nums generalizing i with
  | nil => simp [findLineAux]
  | cons x xs ih =>
    by_cases hx : x = number
    · subst hx
      simp [findLineAux, List.indexOf_cons_self]
    · rw [findLineAux, if_neg hx, ih (i + 1)]
      by_cases hmem : number ∈ xs
      · rw [if_pos hmem, if_pos (by simp [hmem])]
        rw [List.indexOf_cons_ne _ hx]
        push_cast
        ring
      · rw [if_neg hmem, if_neg (by simp [hmem, Ne.symm hx])]

theorem findLineClassic_eq (nums : List Int) (number : Int) :
    findLineClassic nums number =
      if number ∈ nums then (nums.indexOf number : Int) else -1 := by
  unfold findLineClassic
  rw [findLineAux_eq]
  split
  · omega
  · rfl

theorem sorted_get_inj (nums : List Int) (hs : List.Pairwise (· < ·) nums)
    {i j : Fin nums.length} (h : nums.get i = nums.get j) : i = j := by
  rcases lt_trichotomy i j with hij | hij | hij
  · exact absurd h (ne_of_lt (List.pairwise_iff_get.mp hs i j hij))
  · exact hij
  · exact absurd h.symm (ne_of_lt (List.pairwise_iff_get.mp hs j i hij))

theorem findLineClassic_at (nums : List Int) (hs : List.Pairwise (· < ·) nums)
    (number : Int) (j : Nat) (hj : j < nums.length)
    (hval : nums.get ⟨j, hj⟩ = number) : findLineClassic nums number = j := by
  have hmem : number ∈ nums := hval ▸ List.get_mem nums j hj
  have hlt : nums.indexOf number < nums.length := List.indexOf_lt_length.mpr hmem
  have hgi : nums.get ⟨nums.indexOf number, hlt⟩ = number := List.indexOf_get hlt
  have heq := sorted_get_inj nums hs (i := ⟨nums.indexOf number, hlt⟩)
    (j := ⟨j, hj⟩) (hgi.trans hval.symm)
  rw [findLineClassic_eq, if_pos hmem]
  exact_mod_cast congrArg Fin.val heq

theorem bsearchAux_eq_classic (nums : List Int) (number : Int)
    (hs : List.Pairwise (· < ·) nums) :
    ∀ (fuel : Nat) (low high : Int),
      0 ≤ low → high < (nums.length : Int) → (high - low + 1).toNat < fuel →
      (∀ (j : Nat) (hj : j < nums.length), nums.get ⟨j, hj⟩ = number →
        low ≤ (j : Int) ∧ (j : Int) ≤ high) →
      bsearchAux nums number fuel low high = findLineClassic nums number := by
  intro fuel
  induction fuel with
  | zero =>
    intro low high h0 hh hf _
    omega
  | succ fuel ih =>
    intro low high h0 hh hf hwin
    simp only [bsearchAux]
    by_cases hlh : low ≤ high
    · rw [if_pos hlh]
      have hm1 : low ≤ (low + high) / 2 := by omega
      have hm2 : (low + high) / 2 ≤ high := by omega
      have hmn : ((low + high) / 2).toNat < nums.length := by omega
      have hget : nums.getD ((low + high) / 2).toNat 0 =
          nums.get ⟨((low + high) / 2).toNat, hmn⟩ := by
        simp [List.getD_eq_getElem, hmn]
      rw [hget]
      by_cases hveq : nums.get ⟨((low + high) / 2).toNat, hmn⟩ = number
      · rw [if_pos hveq]
        rw [findLineClassic_at nums hs number _ hmn hveq]
        omega
      · rw [if_neg hveq]
        by_cases hvlt : nums.get ⟨((low + high) / 2).toNat, hmn⟩ < number
        · rw [if_pos hvlt]
          have hwin2 : ∀ (j : Nat) (hj : j < nums.length), nums.get ⟨j, hj⟩ = number →
              (low + high) / 2 + 1 ≤ (j : Int) ∧ (j : Int) ≤ high := by
            intro j hj hval
            obtain ⟨hw1, hw2⟩ := hwin j hj hval
            refine ⟨?_, hw2⟩
            by_contra hcon
            push_neg at hcon
            have hjm : j ≤ ((low + high) / 2).toNat := by omega
            rcases Nat.lt_or_ge j ((low + high) / 2).toNat with hlt2 | hge2
            · have := List.pairwise_iff_get.mp hs ⟨j, hj⟩
                ⟨((low + high) / 2).toNat, hmn⟩ hlt2
              rw [hval] at this
              omega
            · have hje : j = ((low + high) / 2).toNat := by omega
              subst hje
              exact hveq hval
          have hz : (0 : Int) ≤ (low + high) / 2 + 1 := by omega
          have hfu : ∀ m : Int, low ≤ m → m ≤ high →
              (high - (m + 1) + 1).toNat < fuel := by
            intro m hma hmb
            omega
          exact ih ((low + high) / 2 + 1) high hz hh (hfu _ hm1 hm2) hwin2
        · rw [if_neg hvlt]
          have hwin2 : ∀ (j : Nat) (hj : j < nums.length), nums.get ⟨j, hj⟩ = number →
              low ≤ (j : Int) ∧ (j : Int) ≤ (low + high) / 2 - 1 := by
            intro j hj hval
            obtain ⟨hw1, hw2⟩ := hwin j hj hval
            refine ⟨hw1, ?_⟩
            by_contra hcon
            push_neg at hcon
            have hjm : ((low + high) / 2).toNat ≤ j := by omega
            rcases Nat.lt_or_ge ((low + high) / 2).toNat j with hlt2 | hge2
            · have := List.pairwise_iff_get.mp hs ⟨((low + high) / 2).toNat, hmn⟩
                ⟨j, hj⟩ hlt2
              rw [hval] at this
              omega
            · have hje : j = ((low + high) / 2).toNat := by omega
              subst hje
              exact hveq hval
          have hh2 : (low + high) / 2 - 1 < (nums.length : Int) := by omega
          have hfu : ∀ m : Int, low ≤ m → m ≤ high →
              (m - 1 - low + 1).toNat < fuel := by
            intro m hma hmb
            omega
          exact ih low ((low + high) / 2 - 1) h0 hh2 (hfu _ hm1 hm2) hwin2
    · rw [if_neg hlh]
      have hnm : number ∉ nums := by
        intro hmem
        have hlt := List.indexOf_lt_length.mpr hmem
        have hgi : nums.get ⟨nums.indexOf number, hlt⟩ = number :=
          List.indexOf_get hlt
        obtain ⟨hw1, hw2⟩ := hwin _ hlt hgi
        omega
      rw [findLineClassic_eq, if_neg hnm]

theorem findLineBsearch_eq_classic (nums : List Int) (number : Int)
    (hs : List.Pairwise (· < ·) nums) :
    findLineBsearch nums number = findLineClassic nums number := by
  unfold findLineBsearch
  apply bsearchAux_eq_classic nums number hs (nums.length + 1) 0
    ((nums.length : Int) - 1) (by omega) (by omega) (by omega)
  intro j hj hval
  omega

theorem runLookups_correct (nums : List Int) (hs : List.Pairwise (· < ·) nums)
    (hpos : ∀ x ∈ nums, 0 ≤ x) :
    ∀ (qs : List Int) (cache : Int × Int),
      (cache = (-1, -1) ∨ findLineClassic nums cache.1 = cache.2) →
      runLookups nums cache qs = qs.map (findLineClassic nums) := by
  intro qs
  induction qs with
  | nil => intro cache hinv; rfl
  | cons q qs ih =>
    intro cache hinv
    simp only [runLookups, List.map_cons]
    by_cases hq : q = cache.1
    · have hres : findLineCached nums cache q = (cache, cache.2) := by
        unfold findLineCached
        rw [if_pos hq]
      rw [hres]
      have hval : cache.2 = findLineClassic nums q := by
        rcases hinv with h | h
        · have hnm : (-1 : Int) ∉ nums := by
            intro hmem
            have := hpos _ hmem
            omega
          rw [h] at hq ⊢
          rw [hq, findLineClassic_eq, if_neg hnm]
        · rw [← h, hq]
      rw [← hval]
      exact congrArg (cache.2 :: ·) (ih cache hinv)
    · have hr := findLineBsearch_eq_classic nums q hs
      by_cases hr1 : findLineBsearch nums q = -1
      · have hres : findLineCached nums cache q = (cache, findLineBsearch nums q) := by
          unfold findLineCached
          rw [if_neg hq, if_pos hr1]
        rw [hres, hr]
        exact congrArg _ (ih cache hinv)
      · have hres : findLineCached nums cache q =
            ((q, findLineBsearch nums q), findLineBsearch nums q) := by
          unfold findLineCached
          rw [if_neg hq, if_neg hr1]
        rw [hres, hr]
        exact congrArg _ (ih (q, findLineClassic nums q) (Or.inr rfl))

/-- C9: over any store whose line numbers are strictly increasing and
non-negative (the state after every successful load), the optimised
lookup — binary search plus the one-slot cache, starting from the C
globals' initial cache `(-1, -1)` — returns, on every query of every
lookup sequence, exactly what the classic linear scan returns; and the
linear scan itself yields the unique index of the requested number when
it exists and -1 otherwise. -/
theorem cached_lookup_equals_linear_scan (nums qs : List Int)
    (hs : List.Pairwise (· < ·) nums) (hpos : ∀ x ∈ nums, 0 ≤ x) :
    runLookups nums (-1, -1) qs = qs.map (findLineClassic nums) ∧
    (∀ number : Int, number ∉ nums → findLineClassic nums number = -1) ∧
    (∀ (number : Int) (j : Nat) (hj : j < nums.length),
      nums.get ⟨j, hj⟩ = number → findLineClassic nums number = j) := by
  refine ⟨runLookups_correct nums hs hpos qs (-1, -1) (Or.inl rfl), ?_, ?_⟩
  · intro number hnm
    rw [findLineClassic_eq, if_neg hnm]
  · intro number j hj hval
    exact findLineClassic_at nums hs number j hj hval

/-- Witness for C9 on the store `[10, 20, 30]` and the query sequence
`[20, 20, 5, 30]` (a repeat hit, a miss, and a fresh hit). -/
theorem cached_lookup_equals_linear_scan_witness :
    runLookups [10, 20, 30] (-1, -1) [20, 20, 5, 30] =
      List.map (findLineClassic [10, 20, 30]) [20, 20, 5, 30] ∧
    (∀ number : Int, number ∉ ([10, 20, 30] : List Int) →
      findLineClassic [10, 20, 30] number = -1) ∧
    (∀ (number : Int) (j : Nat) (hj : j < List.length ([10, 20, 30] : List Int)),
      List.get ([10, 20, 30] : List Int) ⟨j, hj⟩ = number →
        findLineClassic [10, 20, 30] number = j) :=
  cached_lookup_equals_linear_scan [10, 20, 30] [20, 20, 5, 30]
    (by decide) (by decide)
